import Mathlib

/-!
Verification of the GitHub-Activity-Report-Generator core pipeline.

Shallow embedding of the Python sources:
- `src/processors/aggregator.py` (DataAggregator, AggregatedData)
- `src/processors/metrics.py` (MetricsCalculator)
- `src/fetchers/base.py` (BaseFetcher adaptive fetch and deduplication)
- `src/fetchers/pull_requests.py`, `src/fetchers/reviews.py` (host-call error handling)
- `src/utils/date_utils.py` (get_period_range)

Records are Python dicts in the source; each record kind is embedded as a
structure whose fields are the keys the embedded code reads, with
`Option String` for keys that may be absent (`none` = key absent or null)
and plain `String` for keys read through `get(key, "")` everywhere.
Python truthiness of such values: `none` and `""` are falsy.
-/

namespace GHReport

/-- Python truthiness of a `str | None` value: `None` and `""` are falsy. -/
def optTruthy : Option String → Bool
  | none => false
  | some s => !s.isEmpty

/-- Left-pad the decimal form of `n` with zeros to `width` characters. -/
def zeroPad (width n : Nat) : String :=
  String.mk (List.replicate (width - (toString n).length) '0') ++ toString n

/-- A Python `datetime.date` value (year, month, day). -/
structure Ymd where
  year : Nat
  month : Nat
  day : Nat
  deriving DecidableEq

/-- `date.isoformat()`: the `YYYY-MM-DD` string of a date. -/
def Ymd.isoformat (d : Ymd) : String :=
  zeroPad 4 d.year ++ "-" ++ zeroPad 2 d.month ++ "-" ++ zeroPad 2 d.day

/-! ## Record shapes (the dict keys read by the embedded code) -/

/-- A commit record as produced by the fetchers and read by the aggregator. -/
structure CommitRec where
  sha : Option String
  date : Option String
  repository : String
  deriving DecidableEq

/-- A pull-request record: the keys read by `aggregator.py` and `metrics.py`. -/
structure PRrec where
  number : Option Nat
  repository : String
  created_at : Option String
  merged_at : Option String
  has_period_activity : Bool
  commits_count : Option Nat
  commits : Option Nat
  deriving DecidableEq

/-- An issue record. -/
structure IssueRec where
  created_at : Option String
  repository : String
  state : String
  deriving DecidableEq

/-- A review record as built by `reviews.py` and read by `metrics.py`.
`body_length` distinguishes key absent (`none`), key present but null
(`some none`) and an integer value (`some (some n)`), because
`metrics.py` reads it as `review.get("body_length", 0)` followed by an
`is None` check. -/
structure ReviewRec where
  id : Option Nat
  pr_number : Option Nat
  repository : String
  state : String
  submitted_at : Option String
  body_length : Option (Option Int)
  body : Option String
  user : String
  requested_at : Option String
  deriving DecidableEq

/-- A comment record. -/
structure CommentRec where
  created_at : Option String
  repository : String
  issue_number : Option Nat
  deriving DecidableEq

/-! ## DataAggregator (src/processors/aggregator.py) -/

/-- `DataAggregator._extract_date`: `item.get(field, "")`, and when truthy
the first ten characters `str(value)[:10]`, else `""`. -/
def extract_date (v : Option String) : String :=
  match v with
  | none => ""
  | some s => if s.isEmpty then "" else s.take 10

/-- `DataAggregator._filter_by_date`, generic in the record kind through the
`dateOf` accessor for the primary date field. Keeps a record when its
extracted date is non-empty and lies between the isoformats inclusive. -/
def filter_by_date {α : Type} (startD endD : Ymd) (dateOf : α → Option String)
    (items : List α) : List α :=
  items.filter fun it =>
    let dateStr := extract_date (dateOf it)
    if dateStr.isEmpty then false
    else decide (startD.isoformat ≤ dateStr) && decide (dateStr ≤ endD.isoformat)

/-- `DataAggregator._filter_prs_by_date`: keep a PR when it carries the
`has_period_activity` flag, otherwise when its `created_at` passes the same
date check as `_filter_by_date`. -/
def filter_prs_by_date (startD endD : Ymd) (prs : List PRrec) : List PRrec :=
  prs.filter fun pr =>
    if pr.has_period_activity then true
    else
      let dateStr := extract_date pr.created_at
      if dateStr.isEmpty then false
      else decide (startD.isoformat ≤ dateStr) && decide (dateStr ≤ endD.isoformat)

/-- `DataAggregator._collect_repositories`: sorted deduplicated union of the
non-empty `repository` fields of commits, PRs, issues and reviews. -/
def collect_repositories (commits : List CommitRec) (prs : List PRrec)
    (issues : List IssueRec) (reviews : List ReviewRec) : List String :=
  ((commits.map CommitRec.repository ++ prs.map PRrec.repository ++
    issues.map IssueRec.repository ++ reviews.map ReviewRec.repository).filter
      (fun r => !r.isEmpty)).dedup.mergeSort (fun a b => a ≤ b)

/-- The `AggregatedData` container (the fields the claims read). -/
structure AggregatedData where
  commits : List CommitRec
  pull_requests : List PRrec
  issues : List IssueRec
  reviews : List ReviewRec
  comments : List CommentRec
  start_date : Ymd
  end_date : Ymd
  repositories : List String

/-- `DataAggregator.aggregate`: date-filter every kind (PRs with the
activity-flag OR rule) and collect repositories. `None` arguments are the
empty list in the source and are embedded as empty lists directly. -/
def aggregate (startD endD : Ymd) (commits : List CommitRec) (prs : List PRrec)
    (issues : List IssueRec) (reviews : List ReviewRec)
    (comments : List CommentRec) : AggregatedData :=
  let commits := filter_by_date startD endD CommitRec.date commits
  let prs := filter_prs_by_date startD endD prs
  let issues := filter_by_date startD endD IssueRec.created_at issues
  let reviews := filter_by_date startD endD ReviewRec.submitted_at reviews
  let comments := filter_by_date startD endD CommentRec.created_at comments
  { commits := commits
    pull_requests := prs
    issues := issues
    reviews := reviews
    comments := comments
    start_date := startD
    end_date := endD
    repositories := collect_repositories commits prs issues reviews }

/-! ## AggregatedData summary (src/processors/aggregator.py) -/

/-- One `Counter[key] += 1` step on an insertion-ordered counter
(`collections.Counter` preserves first-insertion order of keys). -/
def bump : List (String × Nat) → String → List (String × Nat)
  | [], k => [(k, 1)]
  | (a, n) :: rest, k =>
    if a = k then (a, n + 1) :: rest else (a, n) :: bump rest k

/-- `Counter.most_common(1)[0][0]`: the first-inserted key of maximal count
(`most_common` sorts by count descending with a stable sort). -/
def firstMaxKey (l : List (String × Nat)) : String :=
  (l.foldl (fun best kv => if best.2 < kv.2 then kv else best) ("", 0)).1

/-- `AggregatedData._get_most_active_day`: count the non-empty ten-character
date prefixes of every kind (commits, PRs, issues, reviews, comments in that
order) and return the most common one, or `""` when no date was counted. -/
def get_most_active_day (d : AggregatedData) : String :=
  let dayKeys := (d.commits.map (fun c => extract_date c.date) ++
    d.pull_requests.map (fun p => extract_date p.created_at) ++
    d.issues.map (fun i => extract_date i.created_at) ++
    d.reviews.map (fun r => extract_date r.submitted_at) ++
    d.comments.map (fun m => extract_date m.created_at)).filter (fun s => !s.isEmpty)
  let days := dayKeys.foldl bump []
  if days.isEmpty then "" else firstMaxKey days

/-- `AggregatedData._get_most_active_repo`: count the non-empty `repository`
fields of commits, PRs and issues only, and return the most common one, or
`""` when none was counted. -/
def get_most_active_repo (d : AggregatedData) : String :=
  let repoKeys := (d.commits.map CommitRec.repository ++
    d.pull_requests.map PRrec.repository ++
    d.issues.map IssueRec.repository).filter (fun s => !s.isEmpty)
  let repos := repoKeys.foldl bump []
  if repos.isEmpty then "" else firstMaxKey repos

/-- The dict returned by `AggregatedData.get_summary`. -/
structure Summary where
  total_commits : Nat
  total_prs_opened : Nat
  total_prs_merged : Nat
  total_prs_reviewed : Nat
  total_issues_opened : Nat
  total_issues_closed : Nat
  total_comments : Nat
  repos_contributed_to : Nat
  most_active_day : String
  most_active_repo : String

/-- `AggregatedData.get_summary`. `total_prs_merged` counts truthy
`merged_at`; `total_prs_reviewed` counts distinct truthy `pr_number` values
over reviews. -/
def get_summary (d : AggregatedData) : Summary :=
  { total_commits := d.commits.length
    total_prs_opened := d.pull_requests.length
    total_prs_merged := (d.pull_requests.filter (fun pr => optTruthy pr.merged_at)).length
    total_prs_reviewed :=
      ((d.reviews.filterMap ReviewRec.pr_number).filter (fun n => n != 0)).dedup.length
    total_issues_opened := d.issues.length
    total_issues_closed := (d.issues.filter (fun i => i.state == "closed")).length
    total_comments := d.comments.length
    repos_contributed_to := d.repositories.length
    most_active_day := get_most_active_day d
    most_active_repo := get_most_active_repo d }

/-! ## BaseFetcher (src/fetchers/base.py) -/

/-- A raw event record: the three keys `_get_event_id` reads. -/
structure EventRec where
  id : Option String
  sha : Option String
  url : Option String
  deriving DecidableEq

/-- Python `a or b` on `str | None` values. -/
def pyOrStr (a b : Option String) : Option String :=
  if optTruthy a then a else b

/-- `BaseFetcher._get_event_id`:
`event.get("id") or event.get("sha") or event.get("url")`. -/
def get_event_id (e : EventRec) : Option String :=
  pyOrStr e.id (pyOrStr e.sha e.url)

/-- The deduplication key of an event: its event id when truthy, else `none`
(`_deduplicate` keeps an event unconditionally when `not event_id`). -/
def eventKey (e : EventRec) : Option String :=
  match get_event_id e with
  | none => none
  | some s => if s.isEmpty then none else some s

/-- The loop of `BaseFetcher._deduplicate` with its `seen` set. -/
def dedup_go (seen : List String) : List EventRec → List EventRec
  | [] => []
  | e :: rest =>
    match eventKey e with
    | some k =>
      if k ∈ seen then dedup_go seen rest else e :: dedup_go (k :: seen) rest
    | none => e :: dedup_go seen rest

/-- `BaseFetcher._deduplicate`. -/
def deduplicate (events : List EventRec) : List EventRec :=
  dedup_go [] events

/-- The dedup keys of a list of events. -/
def keysOf (l : List EventRec) : List String :=
  l.filterMap eventKey

/-- `BaseFetcher._iter_weeks`: consecutive 7-day windows, the last truncated
to the end date. Dates are day ordinals. -/
def iter_weeks (start endD : Nat) : List (Nat × Nat) :=
  if start ≤ endD then
    (start, min (start + 6) endD) :: iter_weeks (min (start + 6) endD + 1) endD
  else []
termination_by endD + 1 - start
decreasing_by omega

/-- `BaseFetcher._fetch_week_by_days`: one `_fetch_range(day, day)` call per
day of the window, concatenated. -/
def fetch_week_by_days (f : Nat → Nat → List EventRec) (ws we : Nat) :
    List EventRec :=
  if ws ≤ we then f ws ws ++ fetch_week_by_days f (ws + 1) we else []
termination_by we + 1 - ws
decreasing_by omega

/-- The window loop of `BaseFetcher.fetch_period`: fetch each window, and
when the result has at least `threshold` events discard it and re-fetch the
window day by day. -/
def fetch_windows (f : Nat → Nat → List EventRec) (threshold : Nat) :
    List (Nat × Nat) → List EventRec
  | [] => []
  | w :: rest =>
    (if threshold ≤ (f w.1 w.2).length then fetch_week_by_days f w.1 w.2
     else f w.1 w.2) ++ fetch_windows f threshold rest

/-- `BaseFetcher.fetch_period`. -/
def fetch_period (f : Nat → Nat → List EventRec) (threshold : Nat)
    (start endD : Nat) : List EventRec :=
  deduplicate (fetch_windows f threshold (iter_weeks start endD))

/-- The days of a window, in order. -/
def day_range (ws we : Nat) : List Nat :=
  (List.range (we + 1 - ws)).map (ws + ·)

/-! ## MetricsCalculator (src/processors/metrics.py)

Datetime parsing (`_parse_datetime`, a Python `strptime` over four formats)
is embedded abstractly as a parameter `parse : String → Option ℚ` returning
POSIX seconds, `none` where the source raises `ValueError` (caught by every
calling site and treated as skip-this-sample). Float arithmetic is embedded
over `ℚ`. -/

/-- Python f-string of `pr.get("number", ...)`-style optional ints: absent
renders as `""` inside the key. -/
def optNatStr : Option Nat → String
  | none => ""
  | some n => toString n

/-- The PR join key `f"{pr.get('repository', '')}#{pr.get('number', '')}"`. -/
def prKey (pr : PRrec) : String :=
  pr.repository ++ "#" ++ optNatStr pr.number

/-- The review join key
`f"{review.get('repository', '')}#{review.get('pr_number', '')}"`. -/
def reviewKey (r : ReviewRec) : String :=
  r.repository ++ "#" ++ optNatStr r.pr_number

/-- `reviews_by_pr.get(pr_key, [])` after grouping reviews by key in order:
the matching reviews in their original order. -/
def prReviews (reviews : List ReviewRec) (k : String) : List ReviewRec :=
  reviews.filter (fun r => reviewKey r == k)

/-- `set(get_reviewer(r) for r in pr_reviews)` cardinality: the number of
distinct reviewer logins (`get_reviewer` yields the login string). -/
def distinctReviewers (l : List ReviewRec) : Nat :=
  (l.map (fun r => r.user)).dedup.length

/-- `pr.get("commits_count", pr.get("commits", 0))`. -/
def commits_count_of (pr : PRrec) : Nat :=
  pr.commits_count.getD (pr.commits.getD 0)

/-- The merge-time samples: for each PR with truthy `merged_at` and
`created_at`, `(merged − created).total_seconds() / 3600`; unparseable pairs
are skipped. -/
def merge_times (parse : String → Option ℚ) (prs : List PRrec) : List ℚ :=
  prs.filterMap fun pr =>
    match pr.merged_at, pr.created_at with
    | some m, some c =>
      if m.isEmpty || c.isEmpty then none
      else
        match parse c, parse m with
        | some pc, some pm => some ((pm - pc) / 3600)
        | _, _ => none
    | _, _ => none

/-- `r.get("submitted_at", "")`, the sort key for first-review search. -/
def submitted_sort_key (r : ReviewRec) : String :=
  r.submitted_at.getD ""

/-- The first-review samples: per PR with matching reviews, sort those
reviews by `submitted_at` (stable), take the first, and when both PR
`created_at` and review `submitted_at` are truthy and parseable keep the
non-negative hour difference. -/
def first_review_times (parse : String → Option ℚ) (rtu : List ReviewRec)
    (prs : List PRrec) : List ℚ :=
  prs.filterMap fun pr =>
    match (prReviews rtu (prKey pr)).mergeSort
        (fun a b => decide (submitted_sort_key a ≤ submitted_sort_key b)) with
    | [] => none
    | firstRv :: _ =>
      match pr.created_at, firstRv.submitted_at with
      | some c, some su =>
        if c.isEmpty || su.isEmpty then none
        else
          match parse c, parse su with
          | some pc, some ps =>
            if 0 ≤ (ps - pc) / 3600 then some ((ps - pc) / 3600) else none
          | _, _ => none
      | _, _ => none

/-- A PR has at least one matching review among `rtu`. -/
def hasMatchingReviews (rtu : List ReviewRec) (pr : PRrec) : Bool :=
  !(prReviews rtu (prKey pr)).isEmpty

/-- Some matching review of the PR has state `CHANGES_REQUESTED`. -/
def hasChangesRequested (rtu : List ReviewRec) (pr : PRrec) : Bool :=
  (prReviews rtu (prKey pr)).any (fun r => r.state == "CHANGES_REQUESTED")

/-- One step of the per-PR loop of `calculate_pr_metrics` accumulating
(review-iteration sum, `prs_with_requested_changes`,
`prs_merged_without_changes`), exactly as the source: the whole body is
guarded by the PR having matching reviews. -/
def pr_review_step (rtu : List ReviewRec) (acc : ℚ × Nat × Nat) (pr : PRrec) :
    ℚ × Nat × Nat :=
  let prr := prReviews rtu (prKey pr)
  if prr.isEmpty then acc
  else
    let iters := acc.1 + (distinctReviewers prr : ℚ)
    if prr.any (fun r => r.state == "CHANGES_REQUESTED") then
      (iters, acc.2.1 + 1, acc.2.2)
    else if optTruthy pr.merged_at then
      (iters, acc.2.1, acc.2.2 + 1)
    else (iters, acc.2.1, acc.2.2)

/-- The per-PR loop of `calculate_pr_metrics`. -/
def pr_review_fold (rtu : List ReviewRec) (prs : List PRrec) : ℚ × Nat × Nat :=
  prs.foldl (pr_review_step rtu) (0, 0, 0)

/-- The `PRMetrics` dataclass (defaults 0, as in the source). -/
structure PRMetricsL where
  avg_commits_per_pr : ℚ := 0
  avg_time_to_merge_hours : ℚ := 0
  avg_time_to_first_review_hours : ℚ := 0
  avg_review_iterations : ℚ := 0
  prs_merged_without_changes : Nat := 0
  prs_with_requested_changes : Nat := 0
  deriving DecidableEq

/-- `MetricsCalculator.calculate_pr_metrics`: `None` unless enabled and PRs
non-empty; `reviews_on_authored_prs` is used when non-empty, else `reviews`;
the review-dependent metrics stay at their defaults when that list is
empty. -/
def calculate_pr_metrics (enabled : Bool) (parse : String → Option ℚ)
    (prs : List PRrec) (reviews reviews_on_authored : List ReviewRec) :
    Option PRMetricsL :=
  if !enabled || prs.isEmpty then none
  else
    let avgCommits : ℚ := ((prs.map commits_count_of).sum : ℚ) / (prs.length : ℚ)
    let mts := merge_times parse prs
    let avgMerge : ℚ := if mts.isEmpty then 0 else mts.sum / (mts.length : ℚ)
    let rtu := if !reviews_on_authored.isEmpty then reviews_on_authored else reviews
    if rtu.isEmpty then
      some { avg_commits_per_pr := avgCommits, avg_time_to_merge_hours := avgMerge }
    else
      let frts := first_review_times parse rtu prs
      let avgFirst : ℚ := if frts.isEmpty then 0 else frts.sum / (frts.length : ℚ)
      let res := pr_review_fold rtu prs
      let avgIter : ℚ := if 0 < prs.length then res.1 / (prs.length : ℚ) else res.1
      some { avg_commits_per_pr := avgCommits
             avg_time_to_merge_hours := avgMerge
             avg_time_to_first_review_hours := avgFirst
             avg_review_iterations := avgIter
             prs_with_requested_changes := res.2.1
             prs_merged_without_changes := res.2.2 }

/-- The effective `body_length` of a review in `calculate_review_metrics`:
`review.get("body_length", 0)` (absent key gives the default 0), and only a
present-but-null value is recomputed from `body`
(`len(body) if body else 0`). -/
def effective_body_length (r : ReviewRec) : Int :=
  match r.body_length with
  | some (some n) => n
  | some none =>
    match r.body with
    | some b => if b.isEmpty then 0 else (b.length : Int)
    | none => 0
  | none => 0

/-- `prs_by_key.get(key)` where the dict was filled by insertion with
overwrite: the last PR with the key wins. -/
def lookup_pr (prs : List PRrec) (k : String) : Option PRrec :=
  prs.reverse.find? (fun p => prKey p == k)

/-- One review's turnaround sample: PR `created_at` by key lookup (falling
back to the review's `requested_at` when no PR matches) to `submitted_at`,
kept when both are truthy, parseable, and the difference is
non-negative. -/
def turnaround_sample (parse : String → Option ℚ) (prs : List PRrec)
    (r : ReviewRec) : Option ℚ :=
  match r.submitted_at with
  | none => none
  | some su =>
    if su.isEmpty then none
    else
      let createdOpt :=
        match lookup_pr prs (reviewKey r) with
        | some pr => pr.created_at
        | none => r.requested_at
      match createdOpt with
      | none => none
      | some c =>
        if c.isEmpty then none
        else
          match parse c, parse su with
          | some pc, some ps =>
            if 0 ≤ (ps - pc) / 3600 then some ((ps - pc) / 3600) else none
          | _, _ => none

/-- The `ReviewMetrics` dataclass (defaults 0). -/
structure ReviewMetricsL where
  avg_review_turnaround_hours : ℚ := 0
  reviews_with_comments : Nat := 0
  approvals : Nat := 0
  changes_requested : Nat := 0
  deriving DecidableEq

/-- One step of the per-review loop of `calculate_review_metrics`
accumulating (approvals, changes_requested, reviews_with_comments,
turnaround samples). -/
def review_step (parse : String → Option ℚ) (prs : List PRrec)
    (acc : Nat × Nat × Nat × List ℚ) (r : ReviewRec) :
    Nat × Nat × Nat × List ℚ :=
  let acc1 :=
    if r.state == "APPROVED" then (acc.1 + 1, acc.2.1, acc.2.2.1, acc.2.2.2)
    else if r.state == "CHANGES_REQUESTED" then
      (acc.1, acc.2.1 + 1, acc.2.2.1, acc.2.2.2)
    else acc
  let acc2 :=
    if 0 < effective_body_length r then
      (acc1.1, acc1.2.1, acc1.2.2.1 + 1, acc1.2.2.2)
    else acc1
  match turnaround_sample parse prs r with
  | some h => (acc2.1, acc2.2.1, acc2.2.2.1, acc2.2.2.2 ++ [h])
  | none => acc2

/-- The per-review loop of `calculate_review_metrics`. -/
def review_fold (parse : String → Option ℚ) (prs : List PRrec)
    (reviews : List ReviewRec) : Nat × Nat × Nat × List ℚ :=
  reviews.foldl (review_step parse prs) (0, 0, 0, [])

/-- `MetricsCalculator.calculate_review_metrics`: `None` unless enabled and
reviews non-empty; `prs` is the optional PR list for turnaround lookup
(`[]` embeds `None`). -/
def calculate_review_metrics (enabled : Bool) (parse : String → Option ℚ)
    (reviews : List ReviewRec) (prs : List PRrec) : Option ReviewMetricsL :=
  if !enabled || reviews.isEmpty then none
  else
    let res := review_fold parse prs reviews
    let avgT : ℚ :=
      if res.2.2.2.isEmpty then 0 else res.2.2.2.sum / (res.2.2.2.length : ℚ)
    some { avg_review_turnaround_hours := avgT
           reviews_with_comments := res.2.2.1
           approvals := res.1
           changes_requested := res.2.1 }

/-! ## date_utils.get_period_range (src/utils/date_utils.py) -/

/-- Gregorian leap year, as Python `calendar.isleap`. -/
def isLeapYear (y : Nat) : Bool :=
  y % 4 == 0 && (y % 100 != 0 || y % 400 == 0)

/-- The last day of a month: the second component of the Python stdlib
`calendar.monthrange(year, month)` (proleptic Gregorian). -/
def days_in_month (y m : Nat) : Nat :=
  if m = 2 then (if isLeapYear y then 29 else 28)
  else if m = 4 ∨ m = 6 ∨ m = 9 ∨ m = 11 then 30
  else 31

/-- The `period_type` literal of `get_period_range`. -/
inductive PeriodType
  | monthly
  | quarterly
  deriving DecidableEq

/-- `get_period_range(year, period_type, period_value)`: validation
`ValueError` on an out-of-range month or quarter, else the inclusive start
and end dates of the period. -/
def get_period_range (year : Nat) (ptype : PeriodType) (v : Nat) :
    Except String (Ymd × Ymd) :=
  match ptype with
  | .monthly =>
    if ¬(1 ≤ v ∧ v ≤ 12) then
      .error ("Month must be 1-12, got " ++ toString v)
    else
      .ok (⟨year, v, 1⟩, ⟨year, v, days_in_month year v⟩)
  | .quarterly =>
    if ¬(1 ≤ v ∧ v ≤ 4) then
      .error ("Quarter must be 1-4, got " ++ toString v)
    else if v = 1 then .ok (⟨year, 1, 1⟩, ⟨year, 3, 31⟩)
    else if v = 2 then .ok (⟨year, 4, 1⟩, ⟨year, 6, 30⟩)
    else if v = 3 then .ok (⟨year, 7, 1⟩, ⟨year, 9, 30⟩)
    else .ok (⟨year, 10, 1⟩, ⟨year, 12, 31⟩)

/-! ## Fetcher host-call error handling
(src/fetchers/pull_requests.py, src/fetchers/reviews.py)

The host client `gh.api(endpoint)` either raises (any exception) or returns
parsed JSON; it is embedded as an `Except String _` value supplied per
call. -/

/-- The `pull_request` sub-dict of a search item (`{}`, the falsy default,
is `none`). -/
structure PRDataRaw where
  merged_at : Option String
  deriving DecidableEq

/-- A raw item of the `/search/issues` response, with the keys
`_fetch_range` reads. -/
structure SearchItem where
  number : Option Nat
  title : String
  state : String
  repository_url : String
  created_at : Option String
  closed_at : Option String
  html_url : String
  pull_request : Option PRDataRaw
  deriving DecidableEq

/-- A `gh.api` search result: a dict (with its `items` list) or a non-dict
value, which the source maps to zero items. -/
inductive ApiResult
  | dict (items : List SearchItem)
  | nonDict

/-- The PR dict built by `PullRequestsFetcher._fetch_range`. -/
structure FetchedPR where
  number : Option Nat
  title : String
  state : String
  repository : String
  created_at : Option String
  merged_at : Option String
  closed_at : Option String
  url : String
  deriving DecidableEq

/-- `"/".join(repo_url.split("/")[-2:]) if repo_url else ""`. -/
def repo_name_of (repository_url : String) : String :=
  if repository_url.isEmpty then ""
  else
    let parts := repository_url.splitOn "/"
    "/".intercalate (parts.drop (parts.length - 2))

/-- The per-item transform of `PullRequestsFetcher._fetch_range`: repository
from the URL, `merged_at` from the truthy `pull_request` sub-dict, state
overridden to `"merged"` when `merged_at` is truthy. -/
def transform_search_item (item : SearchItem) : FetchedPR :=
  let repoName := repo_name_of item.repository_url
  let mergedAt :=
    match item.pull_request with
    | none => none
    | some pd => pd.merged_at
  let state := if optTruthy mergedAt then "merged" else item.state
  { number := item.number
    title := item.title
    state := state
    repository := repoName
    created_at := item.created_at
    merged_at := mergedAt
    closed_at := item.closed_at
    url := item.html_url }

/-- `PullRequestsFetcher._fetch_range`: a raised host error is caught and
returns the empty list; otherwise the transformed `items`. -/
def pr_fetch_range (host : Except String ApiResult) : List FetchedPR :=
  match host with
  | .error _ => []
  | .ok r =>
    let items :=
      match r with
      | .dict its => its
      | .nonDict => []
    items.map transform_search_item

/-- A raw review of the `/repos/.../pulls/{n}/reviews` response. -/
structure RawReview where
  id : Option Nat
  state : String
  submitted_at : Option String
  body : Option String
  user_login : String
  deriving DecidableEq

/-- A `gh.api` reviews result: a list, a truthy non-list (wrapped into a
one-element list), or a falsy non-list (empty). -/
inductive ReviewsApiResult
  | list (l : List RawReview)
  | single (r : RawReview)
  | nullish

/-- `ReviewsFetcher._fetch_pr_reviews`: a raised host error is caught and
returns the empty list; a non-list result is wrapped. -/
def fetch_pr_reviews (host : Except String ReviewsApiResult) : List RawReview :=
  match host with
  | .error _ => []
  | .ok (.list l) => l
  | .ok (.single r) => [r]
  | .ok .nullish => []

/-- The per-review filter/transform of `fetch_reviews_for_prs`: keep a
review whose ten-character `submitted_at` prefix is truthy and within range
and whose reviewer login is the user, normalized to the standard review
shape (`body_length` from `len(body or "")`). -/
def review_filter_transform (username : String) (startD endD : Ymd)
    (repo : String) (n : Nat) (rv : RawReview) : Option ReviewRec :=
  let submitted10 := (rv.submitted_at.getD "").take 10
  if submitted10.isEmpty then none
  else if decide (startD.isoformat ≤ submitted10) &&
      decide (submitted10 ≤ endD.isoformat) && (rv.user_login == username) then
    some { id := rv.id
           pr_number := some n
           repository := repo
           state := rv.state
           submitted_at := rv.submitted_at
           body_length := some (some ((rv.body.getD "").length : Int))
           body := rv.body
           user := rv.user_login
           requested_at := none }
  else none

/-- The contribution of one PR to `fetch_reviews_for_prs`: nothing when
`repository` or `number` is falsy, else the filtered transform of that PR's
fetched reviews. -/
def pr_contribution (host : String → Nat → Except String ReviewsApiResult)
    (username : String) (startD endD : Ymd) (pr : FetchedPR) : List ReviewRec :=
  match pr.number with
  | none => []
  | some n =>
    if pr.repository.isEmpty || n == 0 then []
    else
      (fetch_pr_reviews (host pr.repository n)).filterMap
        (review_filter_transform username startD endD pr.repository n)

/-- `ReviewsFetcher.fetch_reviews_for_prs`: the accumulation loop over PRs,
appending each PR's surviving reviews. -/
def fetch_reviews_for_prs (host : String → Nat → Except String ReviewsApiResult)
    (username : String) (startD endD : Ymd) (prs : List FetchedPR) :
    List ReviewRec :=
  prs.foldl
    (fun acc pr =>
      match pr.number with
      | none => acc
      | some n =>
        if pr.repository.isEmpty || n == 0 then acc
        else
          acc ++ (fetch_pr_reviews (host pr.repository n)).filterMap
            (review_filter_transform username startD endD pr.repository n))
    []

/-! ## General lemmas -/

theorem string_empty_le (s : String) : "" ≤ s := by
  rw [String.le_iff_toList_le]
  exact List.nil_le

theorem string_le_empty_iff (s : String) : s ≤ "" ↔ s = "" :=
  ⟨fun h => le_antisymm h (string_empty_le s), fun h => h ▸ le_refl _⟩

theorem isoformat_ne_empty (d : Ymd) : d.isoformat ≠ "" := by
  intro h
  have hlen : d.isoformat.length = 0 := by rw [h]; rfl
  rw [Ymd.isoformat, String.length_append, String.length_append,
    String.length_append, String.length_append,
    show ("-" : String).length = 1 from rfl] at hlen
  omega

/-- The date condition of `_filter_by_date` on one optional field, stated as
the spec states it: the field holds a string whose first ten characters lie
between the two isoformats inclusive. -/
theorem date_check_iff (startD endD : Ymd) (v : Option String) :
    ((if (extract_date v).isEmpty then false
      else decide (startD.isoformat ≤ extract_date v) &&
        decide (extract_date v ≤ endD.isoformat)) = true) ↔
    ∃ ds, v = some ds ∧ startD.isoformat ≤ ds.take 10 ∧ ds.take 10 ≤ endD.isoformat := by
  match v with
  | none =>
    rw [show extract_date none = "" from rfl,
      if_pos (show ("" : String).isEmpty = true from rfl)]
    constructor
    · intro h; exact absurd h (by decide)
    · rintro ⟨ds, hds, -, -⟩; exact Option.noConfusion hds
  | some s =>
    by_cases hs : s = ""
    · subst hs
      rw [show extract_date (some "") = "" from rfl,
        if_pos (show ("" : String).isEmpty = true from rfl)]
      constructor
      · intro h; exact absurd h (by decide)
      · rintro ⟨ds, hds, hle, -⟩
        cases Option.some.inj hds
        rw [show ("" : String).take 10 = "" from by decide] at hle
        exact absurd ((string_le_empty_iff _).mp hle) (isoformat_ne_empty startD)
    · have hse : s.isEmpty = false := by
        cases hb : s.isEmpty with
        | false => rfl
        | true => exact absurd ((String.isEmpty_iff _).mp hb) hs
      have h1 : extract_date (some s) = s.take 10 := by
        show (if s.isEmpty then "" else s.take 10) = s.take 10
        rw [hse, if_neg (by decide)]
      rw [h1]
      by_cases ht : s.take 10 = ""
      · rw [ht, if_pos (show ("" : String).isEmpty = true from rfl)]
        constructor
        · intro h; exact absurd h (by decide)
        · rintro ⟨ds, hds, hle, -⟩
          cases Option.some.inj hds
          rw [ht] at hle
          exact absurd ((string_le_empty_iff _).mp hle) (isoformat_ne_empty startD)
      · have hte : (s.take 10).isEmpty = false := by
          cases hb : (s.take 10).isEmpty with
          | false => rfl
          | true => exact absurd ((String.isEmpty_iff _).mp hb) ht
        rw [hte, if_neg (by decide), Bool.and_eq_true, decide_eq_true_eq,
          decide_eq_true_eq]
        constructor
        · rintro ⟨hle, hge⟩; exact ⟨s, rfl, hle, hge⟩
        · rintro ⟨ds, hds, hle, hge⟩
          cases Option.some.inj hds
          exact ⟨hle, hge⟩

theorem mem_filter_by_date {α : Type} (startD endD : Ymd) (dateOf : α → Option String)
    (items : List α) (x : α) :
    x ∈ filter_by_date startD endD dateOf items ↔
    x ∈ items ∧ ∃ ds, dateOf x = some ds ∧
      startD.isoformat ≤ ds.take 10 ∧ ds.take 10 ≤ endD.isoformat := by
  unfold filter_by_date
  rw [List.mem_filter]
  exact and_congr_right fun _ => date_check_iff startD endD (dateOf x)

theorem mem_filter_prs_by_date (startD endD : Ymd) (prs : List PRrec) (pr : PRrec) :
    pr ∈ filter_prs_by_date startD endD prs ↔
    pr ∈ prs ∧ (pr.has_period_activity = true ∨ ∃ ds, pr.created_at = some ds ∧
      startD.isoformat ≤ ds.take 10 ∧ ds.take 10 ≤ endD.isoformat) := by
  unfold filter_prs_by_date
  rw [List.mem_filter]
  refine and_congr_right fun _ => ?_
  by_cases hpa : pr.has_period_activity
  · simp [hpa]
  · simp only [hpa, if_false, Bool.false_eq_true, false_or]
    exact date_check_iff startD endD pr.created_at

/-! ## Claim theorems -/

/-- C1: in `DataAggregator.aggregate` over `[start_date, end_date]`, a
commit / issue / review / comment is in the corresponding output list iff its
primary date field (`date` / `created_at` / `submitted_at` / `created_at`) is
present and its first ten characters lie between `start_date.isoformat()` and
`end_date.isoformat()` inclusive, and a pull request is in the output iff its
`created_at` passes that check or it carries the `has_period_activity` flag. -/
theorem c1_aggregate_date_filter (startD endD : Ymd) (commits : List CommitRec)
    (prs : List PRrec) (issues : List IssueRec) (reviews : List ReviewRec)
    (comments : List CommentRec) :
    (∀ c, c ∈ (aggregate startD endD commits prs issues reviews comments).commits ↔
      c ∈ commits ∧ ∃ ds, c.date = some ds ∧
        startD.isoformat ≤ ds.take 10 ∧ ds.take 10 ≤ endD.isoformat) ∧
    (∀ i, i ∈ (aggregate startD endD commits prs issues reviews comments).issues ↔
      i ∈ issues ∧ ∃ ds, i.created_at = some ds ∧
        startD.isoformat ≤ ds.take 10 ∧ ds.take 10 ≤ endD.isoformat) ∧
    (∀ r, r ∈ (aggregate startD endD commits prs issues reviews comments).reviews ↔
      r ∈ reviews ∧ ∃ ds, r.submitted_at = some ds ∧
        startD.isoformat ≤ ds.take 10 ∧ ds.take 10 ≤ endD.isoformat) ∧
    (∀ m, m ∈ (aggregate startD endD commits prs issues reviews comments).comments ↔
      m ∈ comments ∧ ∃ ds, m.created_at = some ds ∧
        startD.isoformat ≤ ds.take 10 ∧ ds.take 10 ≤ endD.isoformat) ∧
    (∀ pr, pr ∈ (aggregate startD endD commits prs issues reviews comments).pull_requests ↔
      pr ∈ prs ∧ (pr.has_period_activity = true ∨ ∃ ds, pr.created_at = some ds ∧
        startD.isoformat ≤ ds.take 10 ∧ ds.take 10 ≤ endD.isoformat)) := by
  refine ⟨fun c => ?_, fun i => ?_, fun r => ?_, fun m => ?_, fun pr => ?_⟩
  · exact mem_filter_by_date startD endD CommitRec.date commits c
  · exact mem_filter_by_date startD endD IssueRec.created_at issues i
  · exact mem_filter_by_date startD endD ReviewRec.submitted_at reviews r
  · exact mem_filter_by_date startD endD CommentRec.created_at comments m
  · exact mem_filter_prs_by_date startD endD prs pr

theorem extract_date_empty_of (v : Option String) (h : v = none ∨ v = some "") :
    extract_date v = "" := by
  rcases h with h | h <;> rw [h] <;> rfl

/-- C10: `get_summary` on date-less data: when no record of any kind carries
a non-empty primary date string, `most_active_day` is `""`; and when no
commit, PR or issue carries a non-empty `repository`, `most_active_repo` is
`""` (reviews and comments are not scanned for it, so they are left
unconstrained here). -/
theorem c10_summary_empty_defaults (d : AggregatedData) :
    ((∀ c ∈ d.commits, c.date = none ∨ c.date = some "") →
     (∀ p ∈ d.pull_requests, p.created_at = none ∨ p.created_at = some "") →
     (∀ i ∈ d.issues, i.created_at = none ∨ i.created_at = some "") →
     (∀ r ∈ d.reviews, r.submitted_at = none ∨ r.submitted_at = some "") →
     (∀ m ∈ d.comments, m.created_at = none ∨ m.created_at = some "") →
     (get_summary d).most_active_day = "") ∧
    ((∀ c ∈ d.commits, c.repository = "") →
     (∀ p ∈ d.pull_requests, p.repository = "") →
     (∀ i ∈ d.issues, i.repository = "") →
     (get_summary d).most_active_repo = "") := by
  constructor
  · intro hc hp hi hr hm
    show get_most_active_day d = ""
    rw [get_most_active_day]
    have hkeys : (d.commits.map (fun c => extract_date c.date) ++
        d.pull_requests.map (fun p => extract_date p.created_at) ++
        d.issues.map (fun i => extract_date i.created_at) ++
        d.reviews.map (fun r => extract_date r.submitted_at) ++
        d.comments.map (fun m => extract_date m.created_at)).filter
          (fun s => !s.isEmpty) = [] := by
      rw [List.filter_eq_nil_iff]
      intro a ha
      simp only [List.mem_append, List.mem_map] at ha
      rcases ha with ((((⟨c, hcm, rfl⟩ | ⟨p, hpm, rfl⟩) | ⟨i, him, rfl⟩) |
        ⟨r, hrm, rfl⟩) | ⟨m, hmm, rfl⟩)
      · rw [extract_date_empty_of _ (hc c hcm)]; decide
      · rw [extract_date_empty_of _ (hp p hpm)]; decide
      · rw [extract_date_empty_of _ (hi i him)]; decide
      · rw [extract_date_empty_of _ (hr r hrm)]; decide
      · rw [extract_date_empty_of _ (hm m hmm)]; decide
    rw [hkeys]
    rfl
  · intro hc hp hi
    show get_most_active_repo d = ""
    rw [get_most_active_repo]
    have hkeys : (d.commits.map CommitRec.repository ++
        d.pull_requests.map PRrec.repository ++
        d.issues.map IssueRec.repository).filter (fun s => !s.isEmpty) = [] := by
      rw [List.filter_eq_nil_iff]
      intro a ha
      simp only [List.mem_append, List.mem_map] at ha
      rcases ha with ((⟨c, hcm, rfl⟩ | ⟨p, hpm, rfl⟩) | ⟨i, him, rfl⟩)
      · rw [hc c hcm]; decide
      · rw [hp p hpm]; decide
      · rw [hi i him]; decide
    rw [hkeys]
    rfl

theorem dedup_go_sublist (seen : List String) (l : List EventRec) :
    (dedup_go seen l).Sublist l := by
  induction l generalizing seen with
  | nil => simp [dedup_go]
  | cons e rest ih =>
    cases hk : eventKey e with
    | none => simp only [dedup_go, hk]; exact (ih seen).cons₂ e
    | some k =>
      simp only [dedup_go, hk]
      by_cases hmem : k ∈ seen
      · rw [if_pos hmem]; exact (ih seen).cons e
      · rw [if_neg hmem]; exact (ih (k :: seen)).cons₂ e

theorem dedup_go_keys (seen : List String) (l : List EventRec) :
    (keysOf (dedup_go seen l)).Nodup ∧
    ∀ k ∈ keysOf (dedup_go seen l), k ∉ seen := by
  induction l generalizing seen with
  | nil => simp [dedup_go, keysOf]
  | cons e rest ih =>
    cases hk : eventKey e with
    | none =>
      simp only [dedup_go, hk]
      have hkeys : keysOf (e :: dedup_go seen rest) = keysOf (dedup_go seen rest) := by
        rw [keysOf, List.filterMap_cons, hk]; rfl
      rw [hkeys]
      exact ih seen
    | some k =>
      simp only [dedup_go, hk]
      by_cases hmem : k ∈ seen
      · rw [if_pos hmem]
        exact ih seen
      · rw [if_neg hmem]
        have hkeys : keysOf (e :: dedup_go (k :: seen) rest) =
            k :: keysOf (dedup_go (k :: seen) rest) := by
          rw [keysOf, List.filterMap_cons, hk]; rfl
        rw [hkeys]
        obtain ⟨hnd, hout⟩ := ih (k :: seen)
        refine ⟨List.nodup_cons.mpr ⟨fun hkk => ?_, hnd⟩, ?_⟩
        · exact hout k hkk (List.mem_cons_self k seen)
        · intro k2 hk2
          rcases List.mem_cons.mp hk2 with rfl | hk2
          · exact hmem
          · intro hk2s
            exact hout k2 hk2 (List.mem_cons_of_mem _ hk2s)

theorem dedup_go_fixed (seen : List String) (l : List EventRec)
    (hnd : (keysOf l).Nodup) (hdisj : ∀ k ∈ keysOf l, k ∉ seen) :
    dedup_go seen l = l := by
  induction l generalizing seen with
  | nil => rfl
  | cons e rest ih =>
    cases hk : eventKey e with
    | none =>
      simp only [dedup_go, hk]
      have hkeys : keysOf (e :: rest) = keysOf rest := by
        rw [keysOf, List.filterMap_cons, hk]; rfl
      rw [hkeys] at hnd hdisj
      rw [ih seen hnd hdisj]
    | some k =>
      simp only [dedup_go, hk]
      have hkeys : keysOf (e :: rest) = k :: keysOf rest := by
        rw [keysOf, List.filterMap_cons, hk]; rfl
      rw [hkeys] at hnd hdisj
      have hmem : k ∉ seen := hdisj k (List.mem_cons_self k _)
      rw [if_neg hmem]
      obtain ⟨hknotin, hnd'⟩ := List.nodup_cons.mp hnd
      have hdisj' : ∀ k2 ∈ keysOf rest, k2 ∉ k :: seen := by
        intro k2 hk2
        intro hk2in
        rcases List.mem_cons.mp hk2in with rfl | hk2in
        · exact hknotin hk2
        · exact hdisj k2 (List.mem_cons_of_mem _ hk2) hk2in
      rw [ih (k :: seen) hnd' hdisj']

/-- C9: `_deduplicate` is idempotent and order-preserving: applying it twice
equals applying it once (so an already-deduplicated list is returned
unchanged), and its output is a subsequence of its input. -/
theorem c9_deduplicate_idempotent_sublist (l : List EventRec) :
    deduplicate (deduplicate l) = deduplicate l ∧ (deduplicate l).Sublist l := by
  constructor
  · obtain ⟨hnd, hdisj⟩ := dedup_go_keys [] l
    exact dedup_go_fixed [] (dedup_go [] l) hnd hdisj
  · exact dedup_go_sublist [] l

theorem dedup_go_count_keyless (seen : List String) (l : List EventRec)
    (e : EventRec) (he : eventKey e = none) :
    (dedup_go seen l).count e = l.count e := by
  induction l generalizing seen with
  | nil => rfl
  | cons x rest ih =>
    cases hk : eventKey x with
    | none =>
      simp only [dedup_go, hk]
      rw [List.count_cons, List.count_cons, ih seen]
    | some k =>
      simp only [dedup_go, hk]
      have hne : x ≠ e := fun h => by rw [h, he] at hk; exact Option.noConfusion hk
      by_cases hmem : k ∈ seen
      · rw [if_pos hmem, ih seen, List.count_cons_of_ne (fun h => hne h.symm)]
      · rw [if_neg hmem, List.count_cons_of_ne (fun h => hne h.symm), ih (k :: seen),
          List.count_cons_of_ne (fun h => hne h.symm)]

/-- C4 counterexample: on an event carrying all three keys, the unique-key
extraction returns the `id`, not the `sha` that a sha-first preference
would give. -/
theorem c4_counterexample_id_first :
    get_event_id ⟨some "i", some "s", some "u"⟩ = some "i" ∧
    (some "i" : Option String) ≠ some "s" := by
  constructor
  · rfl
  · decide

/-- C4 (amended): `_get_event_id` prefers `id`, then `sha`, then `url` (the
first truthy field wins), and an event with no determinable key (no truthy
id, sha or url) is kept by `_deduplicate` with its full multiplicity, never
dropped. -/
theorem c4_event_id_preference_and_keyless_kept (e : EventRec) (l : List EventRec) :
    (optTruthy e.id = true → get_event_id e = e.id) ∧
    (optTruthy e.id = false → optTruthy e.sha = true → get_event_id e = e.sha) ∧
    (optTruthy e.id = false → optTruthy e.sha = false → get_event_id e = e.url) ∧
    (eventKey e = none → (deduplicate l).count e = l.count e) := by
  refine ⟨fun h1 => ?_, fun h1 h2 => ?_, fun h1 h2 => ?_, fun hkey => ?_⟩
  · rw [get_event_id, pyOrStr, if_pos h1]
  · rw [get_event_id, pyOrStr, if_neg (by rw [h1]; exact Bool.false_ne_true),
      pyOrStr, if_pos h2]
  · rw [get_event_id, pyOrStr, if_neg (by rw [h1]; exact Bool.false_ne_true),
      pyOrStr, if_neg (by rw [h2]; exact Bool.false_ne_true)]
  · exact dedup_go_count_keyless [] l e hkey

/-- Witness for the hypotheses of the C4 theorem at a concrete event. -/
theorem c4_witness :
    get_event_id ⟨none, some "s", some "u"⟩ = some "s" ∧
    (deduplicate [⟨none, some "", none⟩, ⟨none, some "", none⟩]).count
      ⟨none, some "", none⟩ = 2 := by
  constructor
  · exact (c4_event_id_preference_and_keyless_kept ⟨none, some "s", some "u"⟩ []).2.1
      (by decide) (by decide)
  · exact (c4_event_id_preference_and_keyless_kept ⟨none, some "", none⟩
      [⟨none, some "", none⟩, ⟨none, some "", none⟩]).2.2.2 (by decide)

theorem day_range_cons (ws we : Nat) (h : ws ≤ we) :
    day_range ws we = ws :: day_range (ws + 1) we := by
  rw [day_range, day_range, show we + 1 - ws = (we - ws) + 1 by omega,
    show we + 1 - (ws + 1) = we - ws by omega, List.range_succ_eq_map,
    List.map_cons, List.map_map]
  have hfun : ((ws + ·) ∘ Nat.succ) = ((ws + 1) + ·) := by
    funext i
    simp only [Function.comp]
    omega
  rw [hfun, Nat.add_zero]

theorem day_range_nil (ws we : Nat) (h : ¬ws ≤ we) : day_range ws we = [] := by
  rw [day_range, show we + 1 - ws = 0 by omega]
  rfl

theorem day_range_length (ws we : Nat) :
    (day_range ws we).length = we + 1 - ws := by
  rw [day_range, List.length_map, List.length_range]

theorem fetch_week_by_days_eq_aux (n : Nat) (f : Nat → Nat → List EventRec)
    (ws we : Nat) (hn : we + 1 - ws ≤ n) :
    fetch_week_by_days f ws we = (day_range ws we).flatMap (fun d => f d d) := by
  induction n generalizing ws with
  | zero =>
    have hlt : ¬ws ≤ we := by omega
    rw [fetch_week_by_days, if_neg hlt, day_range_nil ws we hlt]
    rfl
  | succ n ih =>
    by_cases hle : ws ≤ we
    · rw [fetch_week_by_days, if_pos hle, ih (ws + 1) (by omega),
        day_range_cons ws we hle]
      rfl
    · rw [fetch_week_by_days, if_neg hle, day_range_nil ws we hle]
      rfl

theorem fetch_week_by_days_eq (f : Nat → Nat → List EventRec) (ws we : Nat) :
    fetch_week_by_days f ws we = (day_range ws we).flatMap (fun d => f d d) :=
  fetch_week_by_days_eq_aux (we + 1 - ws) f ws we (le_refl _)

theorem fetch_windows_eq (f : Nat → Nat → List EventRec) (th : Nat)
    (ws : List (Nat × Nat)) :
    fetch_windows f th ws = ws.flatMap (fun w =>
      if th ≤ (f w.1 w.2).length then (day_range w.1 w.2).flatMap (fun d => f d d)
      else f w.1 w.2) := by
  induction ws with
  | nil => rfl
  | cons w rest ih =>
    rw [fetch_windows, ih, fetch_week_by_days_eq]
    rfl

theorem iter_weeks_mem_aux (n : Nat) (s e : Nat) (hn : e + 1 - s ≤ n) :
    ∀ w ∈ iter_weeks s e, s ≤ w.1 ∧ w.1 ≤ w.2 ∧ w.2 ≤ w.1 + 6 ∧ w.2 ≤ e := by
  induction n generalizing s with
  | zero =>
    intro w hw
    rw [iter_weeks, if_neg (by omega)] at hw
    exact absurd hw (List.not_mem_nil w)
  | succ n ih =>
    intro w hw
    by_cases hse : s ≤ e
    · rw [iter_weeks, if_pos hse] at hw
      rcases List.mem_cons.mp hw with rfl | hw
      · refine ⟨Nat.le_refl s, ?_, ?_, ?_⟩
        · show s ≤ min (s + 6) e
          omega
        · show min (s + 6) e ≤ s + 6
          omega
        · show min (s + 6) e ≤ e
          omega
      · obtain ⟨h1, h2, h3, h4⟩ := ih (min (s + 6) e + 1) (by omega) w hw
        exact ⟨by omega, h2, h3, h4⟩
    · rw [iter_weeks, if_neg hse] at hw
      exact absurd hw (List.not_mem_nil w)

theorem iter_weeks_mem (s e : Nat) :
    ∀ w ∈ iter_weeks s e, s ≤ w.1 ∧ w.1 ≤ w.2 ∧ w.2 ≤ w.1 + 6 ∧ w.2 ≤ e :=
  iter_weeks_mem_aux (e + 1 - s) s e (le_refl _)

/-- C5: `fetch_period` deduplicates the concatenation, over the week
windows, of the daily re-fetch `flatMap (fun d => f d d)` over the days of
any window whose weekly result has length at least the threshold — the
weekly result itself does not occur in that window's contribution — and of
the unchanged weekly result below the threshold; every window spans at most
7 days, and a full window (`w.2 = w.1 + 6`) contributes exactly 7 daily
`_fetch_range` calls. -/
theorem c5_high_activity_daily_refetch (f : Nat → Nat → List EventRec)
    (th s e : Nat) :
    fetch_period f th s e =
      deduplicate ((iter_weeks s e).flatMap (fun w =>
        if th ≤ (f w.1 w.2).length then
          (day_range w.1 w.2).flatMap (fun d => f d d)
        else f w.1 w.2)) ∧
    ∀ w ∈ iter_weeks s e, w.1 ≤ w.2 ∧ w.2 ≤ w.1 + 6 ∧
      (day_range w.1 w.2).length = w.2 + 1 - w.1 ∧
      (w.2 = w.1 + 6 → (day_range w.1 w.2).length = 7) := by
  constructor
  · rw [fetch_period, fetch_windows_eq]
  · intro w hw
    obtain ⟨-, h2, h3, -⟩ := iter_weeks_mem s e w hw
    refine ⟨h2, h3, day_range_length w.1 w.2, fun hfull => ?_⟩
    rw [day_range_length, hfull]
    omega

theorem sum_ite_eq_countP {α : Type} (p : α → Bool) (l : List α) :
    (l.map (fun x => if p x then 1 else 0)).sum = l.countP p := by
  induction l with
  | nil => rfl
  | cons x rest ih =>
    rw [List.map_cons, List.sum_cons, List.countP_cons, ih]
    cases hp : p x <;> simp [hp] <;> omega

theorem foldl_triple_add {α : Type} (f : α → ℚ) (g h : α → Nat)
    (step : (ℚ × Nat × Nat) → α → (ℚ × Nat × Nat))
    (hstep : ∀ acc x, step acc x = (acc.1 + f x, acc.2.1 + g x, acc.2.2 + h x))
    (l : List α) (a : ℚ) (b c : Nat) :
    l.foldl step (a, b, c) =
      (a + (l.map f).sum, b + (l.map g).sum, c + (l.map h).sum) := by
  induction l generalizing a b c with
  | nil => simp
  | cons x rest ih =>
    rw [List.foldl_cons, hstep, ih, List.map_cons, List.map_cons, List.map_cons,
      List.sum_cons, List.sum_cons, List.sum_cons]
    dsimp only
    rw [Prod.mk.injEq, Prod.mk.injEq]
    exact ⟨by ring, by omega, by omega⟩

theorem distinctReviewers_nil : distinctReviewers [] = 0 := rfl

theorem pr_review_step_eq (rtu : List ReviewRec) (acc : ℚ × Nat × Nat)
    (pr : PRrec) :
    pr_review_step rtu acc pr =
      (acc.1 + (distinctReviewers (prReviews rtu (prKey pr)) : ℚ),
       acc.2.1 +
         (if hasMatchingReviews rtu pr && hasChangesRequested rtu pr then 1 else 0),
       acc.2.2 +
         (if hasMatchingReviews rtu pr && !hasChangesRequested rtu pr &&
             optTruthy pr.merged_at then 1 else 0)) := by
  obtain ⟨a, b, c⟩ := acc
  rw [pr_review_step]
  by_cases hprr : (prReviews rtu (prKey pr)).isEmpty
  · have hnil : prReviews rtu (prKey pr) = [] := List.isEmpty_iff.mp hprr
    have hmatch : hasMatchingReviews rtu pr = false := by
      rw [hasMatchingReviews, hprr]; rfl
    simp [hprr, hmatch, hnil, distinctReviewers_nil]
  · have hmatch : hasMatchingReviews rtu pr = true := by
      rw [hasMatchingReviews]
      cases hb : (prReviews rtu (prKey pr)).isEmpty
      · rfl
      · exact absurd hb hprr
    have hchr : hasChangesRequested rtu pr =
        (prReviews rtu (prKey pr)).any (fun r => r.state == "CHANGES_REQUESTED") :=
      rfl
    cases hany : (prReviews rtu (prKey pr)).any (fun r => r.state == "CHANGES_REQUESTED")
    · cases hm : optTruthy pr.merged_at
      · simp [hprr, hmatch, hchr, hany, hm]
      · simp [hprr, hmatch, hchr, hany, hm]
    · simp [hprr, hmatch, hchr, hany]

theorem pr_review_fold_eq (rtu : List ReviewRec) (prs : List PRrec) :
    pr_review_fold rtu prs =
      ((prs.map (fun pr =>
          (distinctReviewers (prReviews rtu (prKey pr)) : ℚ))).sum,
       prs.countP (fun pr => hasMatchingReviews rtu pr && hasChangesRequested rtu pr),
       prs.countP (fun pr => hasMatchingReviews rtu pr &&
         !hasChangesRequested rtu pr && optTruthy pr.merged_at)) := by
  rw [pr_review_fold,
    foldl_triple_add _ _ _ _ (pr_review_step_eq rtu) prs 0 0 0,
    sum_ite_eq_countP, sum_ite_eq_countP]
  rw [Prod.mk.injEq, Prod.mk.injEq]
  exact ⟨by ring, by omega, by omega⟩

theorem isEmpty_false_of_ne_nil {α : Type} {l : List α} (h : l ≠ []) :
    l.isEmpty = false := by
  cases l with
  | nil => exact absurd rfl h
  | cons x rest => rfl

theorem calculate_pr_metrics_some (parse : String → Option ℚ) (prs : List PRrec)
    (reviews roa : List ReviewRec) (hprs : prs ≠ []) (hroa : roa ≠ []) :
    calculate_pr_metrics true parse prs reviews roa = some
      { avg_commits_per_pr := ((prs.map commits_count_of).sum : ℚ) / (prs.length : ℚ)
        avg_time_to_merge_hours :=
          if (merge_times parse prs).isEmpty then 0
          else (merge_times parse prs).sum / ((merge_times parse prs).length : ℚ)
        avg_time_to_first_review_hours :=
          if (first_review_times parse roa prs).isEmpty then 0
          else (first_review_times parse roa prs).sum /
            ((first_review_times parse roa prs).length : ℚ)
        avg_review_iterations := (pr_review_fold roa prs).1 / (prs.length : ℚ)
        prs_with_requested_changes := (pr_review_fold roa prs).2.1
        prs_merged_without_changes := (pr_review_fold roa prs).2.2 } := by
  have h1 : prs.isEmpty = false := isEmpty_false_of_ne_nil hprs
  have h2 : roa.isEmpty = false := isEmpty_false_of_ne_nil hroa
  have h3 : 0 < prs.length := List.length_pos.mpr hprs
  rw [calculate_pr_metrics]
  simp only [h1, h2, Bool.not_true, Bool.false_or, Bool.false_eq_true, if_false,
    Bool.not_false, if_true, h3, if_pos]

/-- C2 counterexample: a merged PR with no matching reviews (here: the only
review carries a different PR key) does not count toward
`prs_merged_without_changes` — the counter stays 0 where the claim demands
1. -/
theorem c2_counterexample_merged_without_reviews :
    Option.map PRMetricsL.prs_merged_without_changes
      (calculate_pr_metrics true (fun _ => none)
        [⟨some 1, "o/r", some "2024-01-01T00:00:00Z",
          some "2024-01-02T00:00:00Z", false, none, none⟩] []
        [⟨some 7, some 2, "o/r", "APPROVED", some "2024-01-01T12:00:00Z",
          none, none, "alice", none⟩]) = some 0 ∧
    (some 0 : Option Nat) ≠ some 1 := by
  constructor
  · decide
  · decide

/-- C2 (amended): when the used review list is non-empty,
`prs_with_requested_changes` counts the PRs that have at least one matching
review among which some review has state `CHANGES_REQUESTED`, and
`prs_merged_without_changes` counts the PRs that have at least one matching
review, none with `CHANGES_REQUESTED`, and a truthy `merged_at`; the two
conditions are mutually exclusive per PR, and a merged PR with no matching
reviews counts toward neither. -/
theorem c2_requested_vs_merged_without (parse : String → Option ℚ)
    (prs : List PRrec) (reviews roa : List ReviewRec)
    (hprs : prs ≠ []) (hroa : roa ≠ []) :
    Option.map PRMetricsL.prs_with_requested_changes
      (calculate_pr_metrics true parse prs reviews roa) =
      some (prs.countP (fun pr =>
        hasMatchingReviews roa pr && hasChangesRequested roa pr)) ∧
    Option.map PRMetricsL.prs_merged_without_changes
      (calculate_pr_metrics true parse prs reviews roa) =
      some (prs.countP (fun pr => hasMatchingReviews roa pr &&
        !hasChangesRequested roa pr && optTruthy pr.merged_at)) ∧
    (∀ pr : PRrec,
      ¬((hasMatchingReviews roa pr && hasChangesRequested roa pr) = true ∧
        (hasMatchingReviews roa pr && !hasChangesRequested roa pr &&
          optTruthy pr.merged_at) = true)) ∧
    (∀ pr : PRrec, hasMatchingReviews roa pr = false →
      (hasMatchingReviews roa pr && hasChangesRequested roa pr) = false ∧
      (hasMatchingReviews roa pr && !hasChangesRequested roa pr &&
        optTruthy pr.merged_at) = false) := by
  rw [calculate_pr_metrics_some parse prs reviews roa hprs hroa]
  refine ⟨?_, ?_, ?_, ?_⟩
  · simp only [Option.map_some', pr_review_fold_eq]
  · simp only [Option.map_some', pr_review_fold_eq]
  · rintro pr ⟨hA, hB⟩
    cases hcr : hasChangesRequested roa pr
    · rw [hcr, Bool.and_false] at hA
      exact Bool.false_ne_true hA
    · rw [hcr, Bool.not_true, Bool.and_false, Bool.false_and] at hB
      exact Bool.false_ne_true hB
  · intro pr hm
    rw [hm, Bool.false_and, Bool.false_and, Bool.false_and]
    exact ⟨rfl, rfl⟩

/-- Witness for the C2 theorem at one PR with one matching
changes-requested review. -/
theorem c2_witness :
    Option.map PRMetricsL.prs_with_requested_changes
      (calculate_pr_metrics true (fun _ => none)
        [⟨some 1, "o/r", some "2024-01-01T00:00:00Z",
          some "2024-01-02T00:00:00Z", false, none, none⟩] []
        [⟨some 7, some 1, "o/r", "CHANGES_REQUESTED",
          some "2024-01-01T12:00:00Z", none, none, "alice", none⟩]) = some 1 := by
  have h := (c2_requested_vs_merged_without (fun _ => none)
    [⟨some 1, "o/r", some "2024-01-01T00:00:00Z",
      some "2024-01-02T00:00:00Z", false, none, none⟩] []
    [⟨some 7, some 1, "o/r", "CHANGES_REQUESTED",
      some "2024-01-01T12:00:00Z", none, none, "alice", none⟩]
    (List.cons_ne_nil _ _) (List.cons_ne_nil _ _)).1
  rw [h]
  decide

/-- C3 counterexample: two PRs, one matching review by one reviewer. The
mean over PRs with matching reviews would be 1, but the code divides the
reviewer sum by the total PR count and yields 1/2. -/
theorem c3_counterexample_denominator :
    Option.map PRMetricsL.avg_review_iterations
      (calculate_pr_metrics true (fun _ => none)
        [⟨some 1, "o/r", none, none, false, none, none⟩,
         ⟨some 2, "o/r", none, none, false, none, none⟩] []
        [⟨some 9, some 1, "o/r", "APPROVED", some "2024-01-01T00:00:00Z",
          none, none, "alice", none⟩]) = some (1 / 2 : ℚ) ∧
    (1 / 2 : ℚ) ≠ 1 := by
  constructor
  · rw [calculate_pr_metrics_some (fun _ => none)
      [⟨some 1, "o/r", none, none, false, none, none⟩,
       ⟨some 2, "o/r", none, none, false, none, none⟩] []
      [⟨some 9, some 1, "o/r", "APPROVED", some "2024-01-01T00:00:00Z",
        none, none, "alice", none⟩]
      (List.cons_ne_nil _ _) (List.cons_ne_nil _ _)]
    simp only [Option.map_some', pr_review_fold_eq]
    have e1 : distinctReviewers (prReviews
        [⟨some 9, some 1, "o/r", "APPROVED", some "2024-01-01T00:00:00Z",
          none, none, "alice", none⟩]
        (prKey ⟨some 1, "o/r", none, none, false, none, none⟩)) = 1 := by decide
    have e2 : distinctReviewers (prReviews
        [⟨some 9, some 1, "o/r", "APPROVED", some "2024-01-01T00:00:00Z",
          none, none, "alice", none⟩]
        (prKey ⟨some 2, "o/r", none, none, false, none, none⟩)) = 0 := by decide
    rw [List.map_cons, List.map_cons, List.map_nil, e1, e2, List.sum_cons,
      List.sum_cons, List.sum_nil]
    norm_num
  · norm_num

/-- C3 (amended): `avg_review_iterations` is the sum over all PRs of the
number of distinct reviewer logins among that PR's matching reviews (a PR
with no matching reviews contributes 0), divided by the total number of
PRs — not the mean over only the PRs that have matching reviews. -/
theorem c3_avg_review_iterations (parse : String → Option ℚ) (prs : List PRrec)
    (reviews roa : List ReviewRec) (hprs : prs ≠ []) (hroa : roa ≠ []) :
    Option.map PRMetricsL.avg_review_iterations
      (calculate_pr_metrics true parse prs reviews roa) =
      some ((prs.map (fun pr =>
        (distinctReviewers (prReviews roa (prKey pr)) : ℚ))).sum /
          (prs.length : ℚ)) := by
  rw [calculate_pr_metrics_some parse prs reviews roa hprs hroa]
  simp only [Option.map_some', pr_review_fold_eq]

/-- Witness for the C3 theorem at the two-PR input. -/
theorem c3_witness :
    Option.map PRMetricsL.avg_review_iterations
      (calculate_pr_metrics true (fun _ => none)
        [⟨some 1, "o/r", none, none, false, none, none⟩,
         ⟨some 2, "o/r", none, none, false, none, none⟩] []
        [⟨some 9, some 1, "o/r", "APPROVED", some "2024-01-01T00:00:00Z",
          none, none, "alice", none⟩]) =
      some (([⟨some 1, "o/r", none, none, false, none, none⟩,
        ⟨some 2, "o/r", none, none, false, none, none⟩].map (fun pr =>
          (distinctReviewers (prReviews
            [⟨some 9, some 1, "o/r", "APPROVED", some "2024-01-01T00:00:00Z",
              none, none, "alice", none⟩] (prKey pr)) : ℚ))).sum / (2 : ℚ)) :=
  c3_avg_review_iterations (fun _ => none)
    [⟨some 1, "o/r", none, none, false, none, none⟩,
     ⟨some 2, "o/r", none, none, false, none, none⟩] []
    [⟨some 9, some 1, "o/r", "APPROVED", some "2024-01-01T00:00:00Z",
      none, none, "alice", none⟩]
    (List.cons_ne_nil _ _) (List.cons_ne_nil _ _)

theorem sum_ite_prop_eq_countP {α : Type} (p : α → Prop) [DecidablePred p]
    (l : List α) :
    (l.map (fun x => if p x then 1 else 0)).sum =
      l.countP (fun x => decide (p x)) := by
  induction l with
  | nil => rfl
  | cons x rest ih =>
    rw [List.map_cons, List.sum_cons, List.countP_cons, ih]
    by_cases hp : p x <;> simp [hp] <;> omega

theorem foldl_quad_add {α : Type} (g1 g2 g3 : α → Nat) (g4 : α → List ℚ)
    (step : (Nat × Nat × Nat × List ℚ) → α → (Nat × Nat × Nat × List ℚ))
    (hstep : ∀ acc x, step acc x =
      (acc.1 + g1 x, acc.2.1 + g2 x, acc.2.2.1 + g3 x, acc.2.2.2 ++ g4 x))
    (l : List α) (a b c : Nat) (d : List ℚ) :
    l.foldl step (a, b, c, d) =
      (a + (l.map g1).sum, b + (l.map g2).sum, c + (l.map g3).sum,
       d ++ l.flatMap g4) := by
  induction l generalizing a b c d with
  | nil => simp
  | cons x rest ih =>
    rw [List.foldl_cons, hstep, ih]
    dsimp only
    rw [List.map_cons, List.map_cons, List.map_cons, List.sum_cons,
      List.sum_cons, List.sum_cons, Prod.mk.injEq, Prod.mk.injEq, Prod.mk.injEq]
    refine ⟨by omega, by omega, by omega, ?_⟩
    rw [show (x :: rest).flatMap g4 = g4 x ++ rest.flatMap g4 from rfl,
      List.append_assoc]

theorem review_step_eq (parse : String → Option ℚ) (prs : List PRrec)
    (acc : Nat × Nat × Nat × List ℚ) (r : ReviewRec) :
    review_step parse prs acc r =
      (acc.1 + (if r.state == "APPROVED" then 1 else 0),
       acc.2.1 + (if r.state == "CHANGES_REQUESTED" then 1 else 0),
       acc.2.2.1 + (if 0 < effective_body_length r then 1 else 0),
       acc.2.2.2 ++ (turnaround_sample parse prs r).toList) := by
  obtain ⟨a, b, c, d⟩ := acc
  rw [review_step]
  by_cases h1 : (r.state == "APPROVED") = true
  · have h2 : (r.state == "CHANGES_REQUESTED") = false := by
      have hst : r.state = "APPROVED" := by simpa using h1
      rw [hst]; decide
    by_cases hbl : 0 < effective_body_length r
    · cases ht : turnaround_sample parse prs r <;> simp [h1, h2, hbl, ht]
    · cases ht : turnaround_sample parse prs r <;> simp [h1, h2, hbl, ht]
  · by_cases h2 : (r.state == "CHANGES_REQUESTED") = true
    · by_cases hbl : 0 < effective_body_length r
      · cases ht : turnaround_sample parse prs r <;> simp [h1, h2, hbl, ht]
      · cases ht : turnaround_sample parse prs r <;> simp [h1, h2, hbl, ht]
    · by_cases hbl : 0 < effective_body_length r
      · cases ht : turnaround_sample parse prs r <;> simp [h1, h2, hbl, ht]
      · cases ht : turnaround_sample parse prs r <;> simp [h1, h2, hbl, ht]

theorem review_fold_eq (parse : String → Option ℚ) (prs : List PRrec)
    (reviews : List ReviewRec) :
    review_fold parse prs reviews =
      (reviews.countP (fun r => r.state == "APPROVED"),
       reviews.countP (fun r => r.state == "CHANGES_REQUESTED"),
       reviews.countP (fun r => decide (0 < effective_body_length r)),
       reviews.flatMap (fun r => (turnaround_sample parse prs r).toList)) := by
  rw [review_fold,
    foldl_quad_add _ _ _ _ _ (review_step_eq parse prs) reviews 0 0 0 [],
    sum_ite_eq_countP, sum_ite_eq_countP, sum_ite_prop_eq_countP]
  rw [Prod.mk.injEq, Prod.mk.injEq, Prod.mk.injEq]
  exact ⟨by omega, by omega, by omega, by rw [List.nil_append]⟩

theorem calculate_review_metrics_some (parse : String → Option ℚ)
    (reviews : List ReviewRec) (prs : List PRrec) (hrev : reviews ≠ []) :
    calculate_review_metrics true parse reviews prs = some
      { avg_review_turnaround_hours :=
          if (review_fold parse prs reviews).2.2.2.isEmpty then 0
          else (review_fold parse prs reviews).2.2.2.sum /
            ((review_fold parse prs reviews).2.2.2.length : ℚ)
        reviews_with_comments := (review_fold parse prs reviews).2.2.1
        approvals := (review_fold parse prs reviews).1
        changes_requested := (review_fold parse prs reviews).2.1 } := by
  have h1 : reviews.isEmpty = false := isEmpty_false_of_ne_nil hrev
  rw [calculate_review_metrics]
  simp only [h1, Bool.not_true, Bool.false_or, Bool.false_eq_true, if_false]

/-- C6 counterexample: on the scenario input exactly as the claim states it
(the two APPROVED reviews and the CHANGES_REQUESTED review carry no
body_length key), `reviews_with_comments` is 1, not 3: an absent
`body_length` defaults to 0 and `body` is not consulted. -/
theorem c6_counterexample_absent_body_length :
    Option.map ReviewMetricsL.reviews_with_comments
      (calculate_review_metrics true (fun _ => none)
        [⟨some 1, none, "", "APPROVED", none, none, none, "", none⟩,
         ⟨some 2, none, "", "APPROVED", none, none, none, "", none⟩,
         ⟨some 3, none, "", "CHANGES_REQUESTED", none, none, none, "", none⟩,
         ⟨some 4, none, "", "COMMENTED", none, some (some 25), none, "", none⟩]
        []) = some 1 ∧
    (some 1 : Option Nat) ≠ some 3 := by
  constructor
  · decide
  · decide

/-- C6 (amended): `calculate_review_metrics` counts `approvals` as reviews
with state APPROVED, `changes_requested` as reviews with state
CHANGES_REQUESTED, and `reviews_with_comments` as reviews with effective
`body_length > 0`, where an absent `body_length` key defaults to 0 and only
a present-but-null `body_length` is recomputed from `body`; the scenario
input yields `approvals = 2, changes_requested = 1, reviews_with_comments =
3` when each review carries its `body_length` explicitly (0, 50, 100, 25,
as in the repository's own test), while with the key absent the last count
is 1. -/
theorem c6_review_metric_counts (parse : String → Option ℚ)
    (reviews : List ReviewRec) (prs : List PRrec) (hrev : reviews ≠ []) :
    Option.map ReviewMetricsL.approvals
      (calculate_review_metrics true parse reviews prs) =
      some (reviews.countP (fun r => r.state == "APPROVED")) ∧
    Option.map ReviewMetricsL.changes_requested
      (calculate_review_metrics true parse reviews prs) =
      some (reviews.countP (fun r => r.state == "CHANGES_REQUESTED")) ∧
    Option.map ReviewMetricsL.reviews_with_comments
      (calculate_review_metrics true parse reviews prs) =
      some (reviews.countP (fun r => decide (0 < effective_body_length r))) ∧
    calculate_review_metrics true parse
      [⟨some 1, none, "", "APPROVED", none, some (some 0), none, "", none⟩,
       ⟨some 2, none, "", "APPROVED", none, some (some 50), none, "", none⟩,
       ⟨some 3, none, "", "CHANGES_REQUESTED", none, some (some 100), none, "", none⟩,
       ⟨some 4, none, "", "COMMENTED", none, some (some 25), none, "", none⟩]
      [] = some { avg_review_turnaround_hours := 0, reviews_with_comments := 3,
                  approvals := 2, changes_requested := 1 } := by
  refine ⟨?_, ?_, ?_, ?_⟩
  · rw [calculate_review_metrics_some parse reviews prs hrev]
    simp only [Option.map_some', review_fold_eq]
  · rw [calculate_review_metrics_some parse reviews prs hrev]
    simp only [Option.map_some', review_fold_eq]
  · rw [calculate_review_metrics_some parse reviews prs hrev]
    simp only [Option.map_some', review_fold_eq]
  · have hsam : ([⟨some 1, none, "", "APPROVED", none, some (some 0), none, "", none⟩,
       ⟨some 2, none, "", "APPROVED", none, some (some 50), none, "", none⟩,
       ⟨some 3, none, "", "CHANGES_REQUESTED", none, some (some 100), none, "", none⟩,
       ⟨some 4, none, "", "COMMENTED", none, some (some 25), none, "", none⟩] :
        List ReviewRec).flatMap
        (fun r => (turnaround_sample parse [] r).toList) = ([] : List ℚ) := rfl
    rw [calculate_review_metrics_some parse _ [] (List.cons_ne_nil _ _),
      review_fold_eq, hsam, Option.some.injEq, ReviewMetricsL.mk.injEq]
    refine ⟨?_, by decide, by decide, by decide⟩
    rw [if_pos (show (([] : List ℚ)).isEmpty = true from rfl)]

/-- Witness for the C6 theorem at the explicit-body-length scenario. -/
theorem c6_witness :
    Option.map ReviewMetricsL.approvals
      (calculate_review_metrics true (fun _ => none)
        [⟨some 1, none, "", "APPROVED", none, some (some 0), none, "", none⟩,
         ⟨some 2, none, "", "APPROVED", none, some (some 50), none, "", none⟩,
         ⟨some 3, none, "", "CHANGES_REQUESTED", none, some (some 100), none, "", none⟩,
         ⟨some 4, none, "", "COMMENTED", none, some (some 25), none, "", none⟩]
        []) = some 2 := by
  have h := (c6_review_metric_counts (fun _ => none)
    [⟨some 1, none, "", "APPROVED", none, some (some 0), none, "", none⟩,
     ⟨some 2, none, "", "APPROVED", none, some (some 50), none, "", none⟩,
     ⟨some 3, none, "", "CHANGES_REQUESTED", none, some (some 100), none, "", none⟩,
     ⟨some 4, none, "", "COMMENTED", none, some (some 25), none, "", none⟩]
    [] (List.cons_ne_nil _ _)).1
  rw [h]
  decide

/-- C7: `get_period_range` returns `(date(year, m, 1), last day of month m)`
for every month 1..12, the fixed quarter boundaries for every quarter 1..4,
and raises a validation error exactly when the month or quarter value is out
of range. -/
theorem c7_get_period_range (year m q : Nat)
    (hm1 : 1 ≤ m) (hm2 : m ≤ 12) (hq1 : 1 ≤ q) (hq2 : q ≤ 4) :
    get_period_range year .monthly m =
      .ok (⟨year, m, 1⟩, ⟨year, m, days_in_month year m⟩) ∧
    (q = 1 → get_period_range year .quarterly q =
      .ok (⟨year, 1, 1⟩, ⟨year, 3, 31⟩)) ∧
    (q = 2 → get_period_range year .quarterly q =
      .ok (⟨year, 4, 1⟩, ⟨year, 6, 30⟩)) ∧
    (q = 3 → get_period_range year .quarterly q =
      .ok (⟨year, 7, 1⟩, ⟨year, 9, 30⟩)) ∧
    (q = 4 → get_period_range year .quarterly q =
      .ok (⟨year, 10, 1⟩, ⟨year, 12, 31⟩)) ∧
    (∀ v, (∃ msg, get_period_range year .monthly v = .error msg) ↔
      ¬(1 ≤ v ∧ v ≤ 12)) ∧
    (∀ v, (∃ msg, get_period_range year .quarterly v = .error msg) ↔
      ¬(1 ≤ v ∧ v ≤ 4)) := by
  refine ⟨?_, ?_, ?_, ?_, ?_, ?_, ?_⟩
  · simp only [get_period_range]
    rw [if_neg (not_not_intro ⟨hm1, hm2⟩)]
  · rintro rfl
    simp [get_period_range]
  · rintro rfl
    simp [get_period_range]
  · rintro rfl
    simp [get_period_range]
  · rintro rfl
    simp [get_period_range]
  · intro v
    by_cases hv : 1 ≤ v ∧ v ≤ 12
    · simp only [get_period_range]
      rw [if_neg (not_not_intro hv)]
      constructor
      · rintro ⟨msg, hmsg⟩
        exact Except.noConfusion hmsg
      · intro h
        exact absurd hv h
    · simp only [get_period_range]
      rw [if_pos hv]
      exact ⟨fun _ => hv, fun _ => ⟨_, rfl⟩⟩
  · intro v
    by_cases hv : 1 ≤ v ∧ v ≤ 4
    · obtain ⟨h1, h2⟩ := hv
      simp only [get_period_range]
      rw [if_neg (not_not_intro ⟨h1, h2⟩)]
      by_cases e1 : v = 1
      · rw [if_pos e1]
        exact ⟨fun ⟨msg, hmsg⟩ => Except.noConfusion hmsg,
          fun h => absurd ⟨h1, h2⟩ h⟩
      · rw [if_neg e1]
        by_cases e2 : v = 2
        · rw [if_pos e2]
          exact ⟨fun ⟨msg, hmsg⟩ => Except.noConfusion hmsg,
            fun h => absurd ⟨h1, h2⟩ h⟩
        · rw [if_neg e2]
          by_cases e3 : v = 3
          · rw [if_pos e3]
            exact ⟨fun ⟨msg, hmsg⟩ => Except.noConfusion hmsg,
              fun h => absurd ⟨h1, h2⟩ h⟩
          · rw [if_neg e3]
            exact ⟨fun ⟨msg, hmsg⟩ => Except.noConfusion hmsg,
              fun h => absurd ⟨h1, h2⟩ h⟩
    · simp only [get_period_range]
      rw [if_pos hv]
      exact ⟨fun _ => hv, fun _ => ⟨_, rfl⟩⟩

/-- Witness for the C7 theorem: February 2024 (a leap year) and Q3. -/
theorem c7_witness :
    get_period_range 2024 .monthly 2 = .ok (⟨2024, 2, 1⟩, ⟨2024, 2, 29⟩) ∧
    get_period_range 2024 .quarterly 3 = .ok (⟨2024, 7, 1⟩, ⟨2024, 9, 30⟩) := by
  have h := c7_get_period_range 2024 2 3 (by decide) (by decide) (by decide)
    (by decide)
  exact ⟨h.1, h.2.2.2.1 rfl⟩

theorem fetch_reviews_go (host : String → Nat → Except String ReviewsApiResult)
    (username : String) (sD eD : Ymd) (prs : List FetchedPR) :
    ∀ init : List ReviewRec,
      prs.foldl
        (fun acc pr =>
          match pr.number with
          | none => acc
          | some n =>
            if pr.repository.isEmpty || n == 0 then acc
            else
              acc ++ (fetch_pr_reviews (host pr.repository n)).filterMap
                (review_filter_transform username sD eD pr.repository n)) init =
      init ++ prs.flatMap (pr_contribution host username sD eD) := by
  induction prs with
  | nil =>
    intro init
    simp
  | cons pr rest ih =>
    intro init
    rw [List.foldl_cons]
    have hstep : (match pr.number with
        | none => init
        | some n =>
          if pr.repository.isEmpty || n == 0 then init
          else
            init ++ (fetch_pr_reviews (host pr.repository n)).filterMap
              (review_filter_transform username sD eD pr.repository n)) =
        init ++ pr_contribution host username sD eD pr := by
      cases hn : pr.number with
      | none => simp [pr_contribution, hn]
      | some n =>
        by_cases hc : (pr.repository.isEmpty || n == 0) = true
        · simp [pr_contribution, hn, hc]
        · simp only [Bool.not_eq_true] at hc
          simp [pr_contribution, hn, hc]
    rw [hstep, ih, List.append_assoc,
      show (pr :: rest).flatMap (pr_contribution host username sD eD) =
        pr_contribution host username sD eD pr ++
          rest.flatMap (pr_contribution host username sD eD) from rfl]

/-- C8: host-call failures degrade to empty results at the fetcher boundary:
`PullRequestsFetcher._fetch_range` returns `[]` on a raised host error,
`ReviewsFetcher._fetch_pr_reviews` returns `[]` on a raised host error, and
`fetch_reviews_for_prs` is exactly the concatenation of the per-PR
contributions, where a PR whose reviews call raised contributes nothing —
so the fetch still returns the results of the per-PR calls that
succeeded. -/
theorem c8_host_error_handling (msg : String) (username : String) (sD eD : Ymd)
    (host : String → Nat → Except String ReviewsApiResult)
    (prs : List FetchedPR) :
    pr_fetch_range (.error msg) = [] ∧
    fetch_pr_reviews (.error msg) = [] ∧
    fetch_reviews_for_prs host username sD eD prs =
      prs.flatMap (pr_contribution host username sD eD) ∧
    (∀ pr n, pr.number = some n → host pr.repository n = .error msg →
      pr_contribution host username sD eD pr = []) := by
  refine ⟨rfl, rfl, ?_, ?_⟩
  · rw [fetch_reviews_for_prs, fetch_reviews_go host username sD eD prs [],
      List.nil_append]
  · intro pr n hn hh
    by_cases hc : (pr.repository.isEmpty || n == 0) = true
    · simp [pr_contribution, hn, hc]
    · simp only [Bool.not_eq_true] at hc
      simp [pr_contribution, hn, hc, hh, fetch_pr_reviews]

end GHReport
